import Mathlib

/-!
Shallow embedding of the SmartPark stand-allocation core
(`ManagePark/serviceAllocation.py` and the incident-cascade workflow
`handle_incident_impact` in `ManagePark/views.py`).

The Django ORM state is modelled as an explicit record of rows (`DB`).
QuerySets are lazy in Django: a queryset passed around is a *filter
predicate* that is re-evaluated against the current rows each time it is
iterated.  We model that by passing predicates (`Vol → Bool`) and
re-filtering the current `DB` at the point of iteration, which is exactly
what the ORM does.  SQL three-valued logic on nullable datetime columns is
modelled by comparison helpers that return `false` on `none` (a SQL NULL
comparison is never satisfied).

Datetimes are integers (timestamps).  Dimensions come from
`DecimalField(max_digits=5, decimal_places=2)`: such values are exact
multiples of 1/100, so they are modelled as integers in hundredth units,
which preserves every comparison, equality and product comparison the code
performs.
-/

namespace SmartPark

/-- Flight allocation status (`VOL_STATUT_CHOICES` plus the `TERMINE`
value written by `liberer_stands_termines`). -/
inductive VolStatut where
  | ATTENTE
  | ALLOUE
  | TERMINE
deriving DecidableEq

/-- Incident status (`INCIDENT_STATUT_CHOICES`). -/
inductive IncidentStatut where
  | OUVERT
  | ENCOURS
  | RESOLU
deriving DecidableEq

/-- `Avion` model: the fields the allocation core reads (dimensions in
hundredth units). -/
structure Avion where
  longueur : Int
  largeur : Int
deriving DecidableEq

/-- `Stand` model: the fields the allocation core reads. -/
structure Stand where
  id : Nat
  nom_operationnel : String
  longueur : Int
  largeur : Int
  distance_stand_aerogare : Int
  disponibilite : Bool
deriving DecidableEq

/-- `Vol` model: the fields the allocation core reads and writes.
`stand_alloue` stores the id of the allocated stand (nullable FK). -/
structure Vol where
  id : Nat
  num_vol_arrive : String
  avion : Option Avion
  date_heure_debut_occupation : Option Int
  date_heure_fin_occupation : Option Int
  statut : VolStatut
  stand_alloue : Option Nat
deriving DecidableEq

/-- `Incident` model: the fields the allocation core reads. -/
structure Incident where
  stand : Nat
  statut : IncidentStatut
deriving DecidableEq

/-- The database state: the three tables the core touches. -/
structure DB where
  vols : List Vol
  stands : List Stand
  incidents : List Incident
deriving DecidableEq

/-- SQL `date_heure_fin_occupation__lte = x`: NULL never satisfies. -/
def finLeB (v : Vol) (x : Int) : Bool :=
  match v.date_heure_fin_occupation with
  | some y => decide (y ≤ x)
  | none => false

/-- SQL `date_heure_debut_occupation__gte = x`: NULL never satisfies. -/
def debutGeB (v : Vol) (x : Int) : Bool :=
  match v.date_heure_debut_occupation with
  | some y => decide (x ≤ y)
  | none => false

/-- SQL `date_heure_debut_occupation__gt = x`: NULL never satisfies. -/
def debutGtB (v : Vol) (x : Int) : Bool :=
  match v.date_heure_debut_occupation with
  | some y => decide (x < y)
  | none => false

/-- An incident is active when its status is in `['OUVERT', 'ENCOURS']`. -/
def incidentActif (i : Incident) : Bool :=
  decide (i.statut = IncidentStatut.OUVERT ∨ i.statut = IncidentStatut.ENCOURS)

/-- `stand.incidents_rapportes.filter(statut__in=['OUVERT','ENCOURS']).exists()`. -/
def standHasActiveIncident (db : DB) (standId : Nat) : Bool :=
  db.incidents.any (fun i => decide (i.stand = standId) && incidentActif i)

/-- Ordering used for `order_by('distance_stand_aerogare')`. -/
def standLeB (a b : Stand) : Bool :=
  decide (a.distance_stand_aerogare ≤ b.distance_stand_aerogare)

/-- Ordering used for `order_by('date_heure_debut_occupation')`
(NULL sorts first). -/
def volLeB (a b : Vol) : Bool :=
  match a.date_heure_debut_occupation, b.date_heure_debut_occupation with
  | none, _ => true
  | some _, none => false
  | some x, some y => decide (x ≤ y)

/-- `ORDER BY distance_stand_aerogare` (stable sort). -/
def sortStands (l : List Stand) : List Stand :=
  List.insertionSort (fun a b => standLeB a b = true) l

/-- `ORDER BY date_heure_debut_occupation` (stable sort). -/
def sortVols (l : List Vol) : List Vol :=
  List.insertionSort (fun a b => volLeB a b = true) l

/-- The eligible stand pool of `allouer_stands_optimise`:
`Stand.objects.filter(disponibilite=True).exclude(incidents_rapportes__statut__in=
['OUVERT','ENCOURS']).order_by('distance_stand_aerogare')`. -/
def standsActifs (db : DB) : List Stand :=
  sortStands (db.stands.filter
    (fun s => s.disponibilite && !(standHasActiveIncident db s.id)))

/-- The temporal conflict check of `allouer_stands_optimise`:
`stand.vols_alloues.filter(statut='ALLOUE').exclude(Q(fin__lte=dt_debut) |
Q(debut__gte=dt_fin)).exists()`, evaluated against the current rows. -/
def conflictExists (db : DB) (standId : Nat) (dtDebut dtFin : Int) : Bool :=
  db.vols.any (fun v =>
    decide (v.statut = VolStatut.ALLOUE) && decide (v.stand_alloue = some standId) &&
    !(finLeB v dtDebut || debutGeB v dtFin))

/-- The inner `for stand in stands_actifs` loop of `allouer_stands_optimise`:
skips incompatible or conflicting stands, breaks out on an exact dimensional
match, and otherwise keeps the smallest-surface compatible stand seen so far.
Returns `(stand_exact, stand_compatible)` as at loop exit. -/
def scanStands (db : DB) (avion : Avion) (dtDebut dtFin : Int) :
    List Stand → Option Stand → Option Stand × Option Stand
  | [], standCompatible => (none, standCompatible)
  | stand :: rest, standCompatible =>
    if ¬ (avion.longueur ≤ stand.longueur ∧ avion.largeur ≤ stand.largeur) then
      scanStands db avion dtDebut dtFin rest standCompatible
    else if conflictExists db stand.id dtDebut dtFin then
      scanStands db avion dtDebut dtFin rest standCompatible
    else if stand.longueur = avion.longueur ∧ stand.largeur = avion.largeur then
      (some stand, standCompatible)
    else
      match standCompatible with
      | none => scanStands db avion dtDebut dtFin rest (some stand)
      | some best =>
        if stand.longueur * stand.largeur < best.longueur * best.largeur then
          scanStands db avion dtDebut dtFin rest (some stand)
        else
          scanStands db avion dtDebut dtFin rest (some best)

/-- Step 3 of `allouer_stands_optimise`: `best_stand = stand_exact or
stand_compatible or None`. -/
def bestStand (db : DB) (avion : Avion) (dtDebut dtFin : Int)
    (stands : List Stand) : Option Stand :=
  match scanStands db avion dtDebut dtFin stands none with
  | (some e, _) => some e
  | (none, c) => c

/-- The commit of step 4: `vol.stand_alloue = best_stand; vol.statut =
'ALLOUE'; vol.save()` applied to the row with the given pk. -/
def updateVolAlloue (vols : List Vol) (volId : Nat) (standId : Nat) : List Vol :=
  vols.map (fun v =>
    if v.id = volId then
      { v with statut := VolStatut.ALLOUE, stand_alloue := some standId }
    else v)

/-- The `for vol in vols` loop of `allouer_stands_optimise`: flights with a
missing aircraft or occupation endpoint are counted unallocated and skipped;
otherwise the stand scan runs against the current rows and a found stand is
committed before the next flight is processed. -/
def runVols (stands : List Stand) :
    DB → List Vol → Nat → Nat → (Nat × Nat) × DB
  | db, [], a, u => ((a, u), db)
  | db, vol :: rest, a, u =>
    match vol.avion, vol.date_heure_debut_occupation,
          vol.date_heure_fin_occupation with
    | some avion, some dtDebut, some dtFin =>
      match bestStand db avion dtDebut dtFin stands with
      | some best =>
        runVols stands { db with vols := updateVolAlloue db.vols vol.id best.id }
          rest (a + 1) u
      | none => runVols stands db rest a (u + 1)
    | _, _, _ => runVols stands db rest a (u + 1)

/-- Row predicate of the flight query of `allouer_stands_optimise`: the
caller's queryset condition (when given) conjoined with `statut='ATTENTE'`. -/
def volsFilterB (volsScope : Option (Vol → Bool)) (v : Vol) : Bool :=
  (match volsScope with
   | none => true
   | some p => p v) && decide (v.statut = VolStatut.ATTENTE)

/-- The flight snapshot taken at the head of the allocation loop:
all `ATTENTE` flights, optionally restricted by a caller queryset (a lazy
filter predicate), ordered by occupation start. -/
def volsATraiter (db : DB) (volsScope : Option (Vol → Bool)) : List Vol :=
  sortVols (db.vols.filter (volsFilterB volsScope))

/-- `allouer_stands_optimise(vols_a_traiter)`: the batch allocation engine.
Returns `((allocated_count, unallocated_count), new state)`. -/
def allouer_stands_optimise (db : DB) (volsScope : Option (Vol → Bool)) :
    (Nat × Nat) × DB :=
  runVols (standsActifs db) db (volsATraiter db volsScope) 0 0

/-- The release step `vol.statut = 'ATTENTE'; vol.stand_alloue = None;
vol.save()` applied to the row with the given pk. -/
def resetVol (vols : List Vol) (volId : Nat) : List Vol :=
  vols.map (fun v =>
    if v.id = volId then
      { v with statut := VolStatut.ATTENTE, stand_alloue := none }
    else v)

/-- `reallouer_vol_unique(vol_pk)`: forced single-flight reallocation after an
incident on its stand.  Returns `((success, message), new state)`. -/
def reallouer_vol_unique (db : DB) (volPk : Nat) : (Bool × String) × DB :=
  match db.vols.find? (fun v => decide (v.id = volPk)) with
  | none => ((false, "Erreur : Vol introuvable."), db)
  | some vol =>
    if vol.statut = VolStatut.ALLOUE then
      match vol.stand_alloue with
      | none =>
        ((false, "Vol " ++ vol.num_vol_arrive ++ " n'a pas de stand alloué."), db)
      | some oldStandId =>
        if standHasActiveIncident db oldStandId then
          let db1 : DB := { db with vols := resetVol db.vols volPk }
          let res := allouer_stands_optimise db1 (some (fun v => decide (v.id = volPk)))
          if 0 < res.1.1 then
            ((true, "Vol " ++ vol.num_vol_arrive ++ " réalloué."), res.2)
          else
            ((false, "Échec de la réallocation. Vol " ++ vol.num_vol_arrive ++
              " mis en file d'attente (ATTENTE). Aucune alternative trouvée."), res.2)
        else
          ((false, "Le Stand n'a plus d'incident actif. Réallocation annulée."), db)
    else
      ((false, "Vol " ++ vol.num_vol_arrive ++ " n'est pas alloué. Action annulée."), db)

/-- Row predicate of the completion sweep query
`Vol.objects.filter(statut='ALLOUE', date_heure_fin_occupation__lte=now)`. -/
def volTermineB (now : Int) (v : Vol) : Bool :=
  decide (v.statut = VolStatut.ALLOUE) && finLeB v now

/-- `liberer_stands_termines()`: marks every allocated flight whose occupation
has ended as `TERMINE` (the stand reference is not touched).  Returns
`(number of flights marked, new state)`. -/
def liberer_stands_termines (db : DB) (now : Int) : Nat × DB :=
  ((db.vols.filter (volTermineB now)).length,
   { db with vols := db.vols.map (fun v =>
       if volTermineB now v then { v with statut := VolStatut.TERMINE } else v) })

/-- Row predicate of the `affected_vols` queryset of `handle_incident_impact`:
allocated to the given stand with a strictly future occupation start. -/
def affectedVolB (standId : Nat) (now : Int) (v : Vol) : Bool :=
  decide (v.stand_alloue = some standId) && decide (v.statut = VolStatut.ALLOUE) &&
  debutGtB v now

/-- `handle_incident_impact(stand_instance)` from `views.py`: counts the
affected flights, bulk-resets them to `ATTENTE`/no stand, then calls
`allouer_stands_optimise(vols_a_traiter=affected_vols)`.  `affected_vols` is a
lazy queryset, so the engine re-evaluates its predicate against the
already-updated rows.  Returns `((count, allocated, unallocated), new state)`;
`allocated`/`unallocated` feed the user-facing messages. -/
def handle_incident_impact (db : DB) (standId : Nat) (now : Int) :
    (Nat × Nat × Nat) × DB :=
  let count := (db.vols.filter (affectedVolB standId now)).length
  if 0 < count then
    let db1 : DB := { db with vols := db.vols.map (fun v =>
      if affectedVolB standId now v then
        { v with statut := VolStatut.ATTENTE, stand_alloue := none }
      else v) }
    let res := allouer_stands_optimise db1 (some (affectedVolB standId now))
    ((count, res.1.1, res.1.2), res.2)
  else
    ((count, 0, 0), db)

/-! ## Specification predicates -/

/-- Primary keys of the flight table are unique (database invariant). -/
def idsNodup (db : DB) : Prop := (db.vols.map Vol.id).Nodup

instance (db : DB) : Decidable (idsNodup db) :=
  inferInstanceAs (Decidable ((db.vols.map Vol.id).Nodup))

/-- Two half-open intervals `[d1, f1)` and `[d2, f2)` truly overlap
(touching endpoints do not count). -/
def overlapI (d1 f1 d2 f2 : Int) : Prop := d1 < f2 ∧ d2 < f1

instance (d1 f1 d2 f2 : Int) : Decidable (overlapI d1 f1 d2 f2) :=
  inferInstanceAs (Decidable (d1 < f2 ∧ d2 < f1))

/-- No double booking: no two distinct allocated flights on the same stand
have truly overlapping occupation intervals. -/
def noDoubleBooking (db : DB) : Prop :=
  ∀ v1 ∈ db.vols, ∀ v2 ∈ db.vols, v1.id ≠ v2.id →
    v1.statut = VolStatut.ALLOUE → v2.statut = VolStatut.ALLOUE →
    v1.stand_alloue.isSome = true → v1.stand_alloue = v2.stand_alloue →
    v1.date_heure_debut_occupation.isSome = true →
    v1.date_heure_fin_occupation.isSome = true →
    v2.date_heure_debut_occupation.isSome = true →
    v2.date_heure_fin_occupation.isSome = true →
    ¬ overlapI (v1.date_heure_debut_occupation.getD 0)
      (v1.date_heure_fin_occupation.getD 0)
      (v2.date_heure_debut_occupation.getD 0)
      (v2.date_heure_fin_occupation.getD 0)

instance (db : DB) : Decidable (noDoubleBooking db) := by
  unfold noDoubleBooking; exact inferInstance

/-- Dimensional compatibility: the stand is at least as large as the
aircraft in both dimensions. -/
def standCompatibleDim (avion : Avion) (stand : Stand) : Prop :=
  avion.longueur ≤ stand.longueur ∧ avion.largeur ≤ stand.largeur

instance (avion : Avion) (stand : Stand) : Decidable (standCompatibleDim avion stand) :=
  inferInstanceAs (Decidable (_ ∧ _))

/-- Exact dimensional match, as tested by the scan loop. -/
def standExactDim (avion : Avion) (stand : Stand) : Prop :=
  stand.longueur = avion.longueur ∧ stand.largeur = avion.largeur

instance (avion : Avion) (stand : Stand) : Decidable (standExactDim avion stand) :=
  inferInstanceAs (Decidable (_ ∧ _))

/-- A stand survives both skip tests of the scan loop for the given aircraft
and interval: compatible and free of temporal conflict. -/
def standQualifies (db : DB) (avion : Avion) (dtDebut dtFin : Int) (stand : Stand) : Prop :=
  standCompatibleDim avion stand ∧ conflictExists db stand.id dtDebut dtFin = false

instance (db : DB) (avion : Avion) (dtDebut dtFin : Int) (stand : Stand) :
    Decidable (standQualifies db avion dtDebut dtFin stand) :=
  inferInstanceAs (Decidable (_ ∧ _))

/-- The stand footprint surface compared by the smallest-compatible rule. -/
def surface (s : Stand) : Int := s.longueur * s.largeur

/-- A flight whose occupation data is incomplete: missing aircraft or
missing interval endpoint. -/
def volIncomplete (v : Vol) : Prop :=
  v.avion = none ∨ v.date_heure_debut_occupation = none ∨
  v.date_heure_fin_occupation = none

instance (v : Vol) : Decidable (volIncomplete v) :=
  inferInstanceAs (Decidable (_ ∨ _ ∨ _))

/-- The stand reference / status relationship actually maintained by the
code: the reference is set iff the flight is allocated or completed. -/
def volOk (v : Vol) : Prop :=
  v.stand_alloue.isSome = true ↔
    (v.statut = VolStatut.ALLOUE ∨ v.statut = VolStatut.TERMINE)

instance (v : Vol) : Decidable (volOk v) :=
  inferInstanceAs (Decidable (_ ↔ _))

/-- State-wide form of `volOk`. -/
def standIffStatut (db : DB) : Prop := ∀ v ∈ db.vols, volOk v

instance (db : DB) : Decidable (standIffStatut db) :=
  inferInstanceAs (Decidable (∀ v ∈ db.vols, volOk v))

/-- Every allocated flight on the given stand has both interval endpoints
defined (what the overlap-checker claim presupposes of "intervals"). -/
def allocatedIntervalsDefined (db : DB) (standId : Nat) : Prop :=
  ∀ v ∈ db.vols, v.statut = VolStatut.ALLOUE → v.stand_alloue = some standId →
    v.date_heure_debut_occupation.isSome = true ∧
    v.date_heure_fin_occupation.isSome = true

instance (db : DB) (standId : Nat) : Decidable (allocatedIntervalsDefined db standId) := by
  unfold allocatedIntervalsDefined; exact inferInstance

/-- The occupation intervals of the pending snapshot agree with the stored
rows carrying the same primary key (used as a loop invariant: the engine
only ever rewrites `statut` and `stand_alloue`). -/
def coreIntact (vols : List Vol) (pending : List Vol) : Prop :=
  ∀ v ∈ pending, ∀ r ∈ vols, r.id = v.id →
    r.date_heure_debut_occupation = v.date_heure_debut_occupation ∧
    r.date_heure_fin_occupation = v.date_heure_fin_occupation

/-- Failure of any precondition of `reallouer_vol_unique`: unknown flight,
not allocated, no stand, or no active incident on its stand. -/
def reallocPreBadB (db : DB) (volPk : Nat) : Bool :=
  match db.vols.find? (fun v => decide (v.id = volPk)) with
  | none => true
  | some vol =>
    !(decide (vol.statut = VolStatut.ALLOUE)) || decide (vol.stand_alloue = none) ||
    !(standHasActiveIncident db (vol.stand_alloue.getD 0))

/-! ## Basic lemmas about the embedding -/

theorem mem_sortVols {v : Vol} {l : List Vol} : v ∈ sortVols l ↔ v ∈ l :=
  (List.perm_insertionSort _ l).mem_iff

theorem mem_sortStands {s : Stand} {l : List Stand} : s ∈ sortStands l ↔ s ∈ l :=
  (List.perm_insertionSort _ l).mem_iff

theorem mem_volsATraiter {db : DB} {volsScope : Option (Vol → Bool)} {v : Vol}
    (h : v ∈ volsATraiter db volsScope) :
    v ∈ db.vols ∧ v.statut = VolStatut.ATTENTE := by
  have h'' := List.mem_filter.1 (mem_sortVols.1 h)
  refine ⟨h''.1, ?_⟩
  have := h''.2
  simp only [volsFilterB, Bool.and_eq_true, decide_eq_true_eq] at this
  exact this.2

theorem volsATraiter_ids_nodup {db : DB} (volsScope : Option (Vol → Bool))
    (h : idsNodup db) : ((volsATraiter db volsScope).map Vol.id).Nodup := by
  have hperm : List.Perm (volsATraiter db volsScope)
      (db.vols.filter (volsFilterB volsScope)) :=
    List.perm_insertionSort _ _
  refine (hperm.map Vol.id).nodup_iff.2 ?_
  exact ((List.filter_sublist db.vols).map Vol.id).nodup h

theorem mem_standsActifs {db : DB} {s : Stand} (h : s ∈ standsActifs db) :
    s ∈ db.stands ∧ s.disponibilite = true ∧
      standHasActiveIncident db s.id = false := by
  have h' := List.mem_filter.1 (mem_sortStands.1 h)
  refine ⟨h'.1, ?_, ?_⟩
  · have := h'.2; simp only [Bool.and_eq_true, Bool.not_eq_true'] at this
    exact this.1
  · have := h'.2; simp only [Bool.and_eq_true, Bool.not_eq_true'] at this
    exact this.2

theorem updateVolAlloue_map_id (vols : List Vol) (volId standId : Nat) :
    (updateVolAlloue vols volId standId).map Vol.id = vols.map Vol.id := by
  simp only [updateVolAlloue, List.map_map]
  refine List.map_congr_left fun v _ => ?_
  by_cases h : v.id = volId <;> simp [h]

theorem resetVol_map_id (vols : List Vol) (volId : Nat) :
    (resetVol vols volId).map Vol.id = vols.map Vol.id := by
  simp only [resetVol, List.map_map]
  refine List.map_congr_left fun v _ => ?_
  by_cases h : v.id = volId <;> simp [h]

theorem allouer_of_empty (db : DB) (volsScope : Option (Vol → Bool))
    (h : volsATraiter db volsScope = []) :
    allouer_stands_optimise db volsScope = ((0, 0), db) := by
  unfold allouer_stands_optimise
  rw [h]
  rfl

/-- The queryset passed by `handle_incident_impact` is re-evaluated by the
engine after the bulk reset: its `statut='ALLOUE'` condition can no longer
hold together with the engine's own `statut='ATTENTE'` filter, so the
engine's flight snapshot is empty — in any state. -/
theorem volsATraiter_affected_empty (db : DB) (standId : Nat) (now : Int) :
    volsATraiter db (some (affectedVolB standId now)) = [] := by
  unfold volsATraiter
  have hfil : db.vols.filter (volsFilterB (some (affectedVolB standId now))) = [] := by
    rw [List.filter_eq_nil_iff]
    intro v _
    simp only [volsFilterB, affectedVolB, Bool.and_eq_true, decide_eq_true_eq, not_and]
    rintro ⟨⟨-, hA⟩, -⟩ hB
    rw [hB] at hA
    exact absurd hA (by decide)
  rw [hfil]
  rfl

theorem finLeB_some {v : Vol} {f : Int} (hf : v.date_heure_fin_occupation = some f)
    (x : Int) : finLeB v x = decide (f ≤ x) := by
  unfold finLeB; rw [hf]

theorem debutGeB_some {v : Vol} {d : Int} (hd : v.date_heure_debut_occupation = some d)
    (x : Int) : debutGeB v x = decide (x ≤ d) := by
  unfold debutGeB; rw [hd]

/-! ## Concrete fixtures used by the per-claim witnesses and counterexamples -/

/-- A 10×10 aircraft. -/
def avion10 : Avion := ⟨1000, 1000⟩

/-- Exact-fit stand for `avion10`, id 1. -/
def standS1 : Stand := ⟨1, "S1", 1000, 1000, 5, true⟩

/-- A second 10×10 stand, id 2. -/
def standS2 : Stand := ⟨2, "S2", 1000, 1000, 7, true⟩

/-- C1 fixture: a future flight allocated to stand 1, which has an open
incident; stand 2 is free and compatible. -/
def volC1 : Vol := ⟨1, "AF001", some avion10, some 100, some 200, VolStatut.ALLOUE, some 1⟩

def dbC1 : DB := ⟨[volC1], [standS1, standS2], [⟨1, IncidentStatut.OUVERT⟩]⟩

/-- Claim C1: the cascade-release workflow is supposed to bulk-reset the
affected flights and have the engine re-process exactly that released set.
On `dbC1` (one affected future flight on stand 1, with free compatible
stand 2 available), the release happens (`count = 1`) but the internal
engine invocation processes no flight at all (`allocated = 0` and
`unallocated = 0`): the lazy `affected_vols` queryset, re-evaluated after
the bulk `update(statut='ATTENTE', stand_alloue=None)`, requires
`statut='ALLOUE'` and `statut='ATTENTE'` at once and matches nothing.  The
released flight is left `ATTENTE` with no stand — yet a direct engine run
restricted to it would allocate it (last conjunct), so it was re-matchable. -/
theorem cascade_release_skips_engine :
    (handle_incident_impact dbC1 1 0).1 = (1, 0, 0) ∧
    (handle_incident_impact dbC1 1 0).2.vols =
      [{ volC1 with statut := VolStatut.ATTENTE, stand_alloue := none }] ∧
    (allouer_stands_optimise (handle_incident_impact dbC1 1 0).2
        (some (fun v => decide (v.id = 1)))).1 = (1, 0) := by
  refine ⟨by decide, by decide, by decide⟩

/-- C2 counterexample fixture: an allocated flight whose occupation has
ended (fin = 5 ≤ now = 10). -/
def volC2 : Vol := ⟨1, "AF002", some avion10, some 0, some 5, VolStatut.ALLOUE, some 1⟩

def dbC2 : DB := ⟨[volC2], [standS1], []⟩

/-- Claim C2 counterexample: after the completion sweep the swept flight has
a non-null stand reference while its status is not `ALLOUE` (it is
`TERMINE`): the sweep sets `statut = 'TERMINE'` without clearing
`stand_alloue`, so "stand reference non-null iff status = ALLOCATED" fails
after that core operation. -/
theorem completion_sweep_violates_iff :
    (liberer_stands_termines dbC2 10).2.vols =
      [{ volC2 with statut := VolStatut.TERMINE }] ∧
    ∃ v ∈ (liberer_stands_termines dbC2 10).2.vols,
      v.stand_alloue.isSome = true ∧ ¬ v.statut = VolStatut.ALLOUE := by
  refine ⟨by decide, by decide⟩

/-- C6 fixture: stand 1 occupied by an allocated flight on `[10, 11)`. -/
def volC6 : Vol := ⟨1, "AF006", some avion10, some 10, some 11, VolStatut.ALLOUE, some 1⟩

def dbC6 : DB := ⟨[volC6], [standS1], []⟩

/-- Claim C6: the Overlap Checker reports a conflict iff the stand has an
`ALLOUE` flight whose interval violates
`(existing.fin ≤ start ∨ end ≤ existing.debut)`; stated for states where
every allocated flight on the stand has both interval endpoints defined,
which is what the claim's "interval" presupposes. -/
theorem overlap_checker_characterization (db : DB) (standId : Nat)
    (dtDebut dtFin : Int) (h : allocatedIntervalsDefined db standId) :
    conflictExists db standId dtDebut dtFin = true ↔
      ∃ v ∈ db.vols, v.statut = VolStatut.ALLOUE ∧ v.stand_alloue = some standId ∧
        ¬ (v.date_heure_fin_occupation.getD 0 ≤ dtDebut ∨
           dtFin ≤ v.date_heure_debut_occupation.getD 0) := by
  unfold conflictExists
  rw [List.any_eq_true]
  constructor
  · rintro ⟨v, hv, hb⟩
    simp only [Bool.and_eq_true, decide_eq_true_eq, Bool.not_eq_true',
      Bool.or_eq_false_iff] at hb
    obtain ⟨⟨hst, hsa⟩, hle, hge⟩ := hb
    obtain ⟨hdS, hfS⟩ := h v hv hst hsa
    obtain ⟨d, hd⟩ := Option.isSome_iff_exists.1 hdS
    obtain ⟨f, hf⟩ := Option.isSome_iff_exists.1 hfS
    refine ⟨v, hv, hst, hsa, ?_⟩
    rw [finLeB_some hf] at hle
    rw [debutGeB_some hd] at hge
    rw [hd, hf]
    simp only [Option.getD_some]
    simp only [decide_eq_false_iff_not] at hle hge
    rintro (hc | hc)
    · exact hle hc
    · exact hge hc
  · rintro ⟨v, hv, hst, hsa, hno⟩
    obtain ⟨hdS, hfS⟩ := h v hv hst hsa
    obtain ⟨d, hd⟩ := Option.isSome_iff_exists.1 hdS
    obtain ⟨f, hf⟩ := Option.isSome_iff_exists.1 hfS
    rw [hd, hf] at hno
    simp only [Option.getD_some] at hno
    push_neg at hno
    refine ⟨v, hv, ?_⟩
    simp only [Bool.and_eq_true, decide_eq_true_eq, Bool.not_eq_true',
      Bool.or_eq_false_iff]
    refine ⟨⟨hst, hsa⟩, ?_, ?_⟩
    · rw [finLeB_some hf]
      simp only [decide_eq_false_iff_not]
      exact fun hc => absurd hc (by omega)
    · rw [debutGeB_some hd]
      simp only [decide_eq_false_iff_not]
      exact fun hc => absurd hc (by omega)

/-- Witness for claim C6: on `dbC6` (stand occupied on `[10, 11)`) the
characterization holds and a new flight on `[11, 12)` raises no conflict:
boundary-touching intervals do not block. -/
theorem overlap_checker_characterization_witness :
    (conflictExists dbC6 1 11 12 = true ↔
      ∃ v ∈ dbC6.vols, v.statut = VolStatut.ALLOUE ∧ v.stand_alloue = some 1 ∧
        ¬ (v.date_heure_fin_occupation.getD 0 ≤ 11 ∨
           12 ≤ v.date_heure_debut_occupation.getD 0)) ∧
    conflictExists dbC6 1 11 12 = false :=
  ⟨overlap_checker_characterization dbC6 1 11 12 (by decide), by decide⟩

/-- Claim C8: any failed precondition of `reallouer_vol_unique` — unknown
flight, flight not `ALLOUE`, no stand, or no active incident on the stand —
yields `success = false` and leaves the state untouched. -/
theorem realloc_precondition_rejection (db : DB) (volPk : Nat)
    (h : reallocPreBadB db volPk = true) :
    (reallouer_vol_unique db volPk).1.1 = false ∧
    (reallouer_vol_unique db volPk).2 = db := by
  unfold reallocPreBadB at h
  unfold reallouer_vol_unique
  cases hfind : db.vols.find? (fun v => decide (v.id = volPk)) with
  | none => exact ⟨rfl, rfl⟩
  | some vol =>
    rw [hfind] at h
    by_cases hst : vol.statut = VolStatut.ALLOUE
    · cases hsa : vol.stand_alloue with
      | none => simp [hst, hsa]
      | some oldId =>
        have hinc : standHasActiveIncident db oldId = false := by
          simp only [hst, hsa] at h
          simpa using h
        simp [hst, hsa, hinc]
    · simp [hst]

/-- C8 witness fixture: a pending flight. -/
def volC8 : Vol := ⟨1, "AF008", some avion10, some 0, some 5, VolStatut.ATTENTE, none⟩

def dbC8 : DB := ⟨[volC8], [standS1], []⟩

/-- Witness for claim C8: reallocating a `ATTENTE` flight fails and
mutates nothing. -/
theorem realloc_precondition_rejection_witness :
    reallocPreBadB dbC8 1 = true ∧
    (reallouer_vol_unique dbC8 1).1.1 = false ∧
    (reallouer_vol_unique dbC8 1).2 = dbC8 :=
  ⟨by decide, (realloc_precondition_rejection dbC8 1 (by decide)).1,
    (realloc_precondition_rejection dbC8 1 (by decide)).2⟩

/-- Claim C9: `handle_incident_impact` resets exactly the flights allocated
to the given stand with status `ALLOUE` and a strictly future occupation
start; every other flight row, the stand table and the incident table are
untouched (the internal engine invocation processes an empty snapshot), and
the returned count is the number of released flights, not the number
re-allocated. -/
theorem cascade_scope_and_count (db : DB) (standId : Nat) (now : Int) :
    (handle_incident_impact db standId now).1.1 =
      (db.vols.filter (affectedVolB standId now)).length ∧
    (handle_incident_impact db standId now).2.stands = db.stands ∧
    (handle_incident_impact db standId now).2.incidents = db.incidents ∧
    (handle_incident_impact db standId now).2.vols = db.vols.map (fun v =>
      if affectedVolB standId now v then
        { v with statut := VolStatut.ATTENTE, stand_alloue := none }
      else v) := by
  unfold handle_incident_impact
  by_cases hc : 0 < (db.vols.filter (affectedVolB standId now)).length
  · have hnoop := allouer_of_empty
      { db with vols := db.vols.map (fun v =>
          if affectedVolB standId now v then
            { v with statut := VolStatut.ATTENTE, stand_alloue := none }
          else v) }
      (some (affectedVolB standId now))
      (volsATraiter_affected_empty _ standId now)
    simp [hc, hnoop]
  · have hnone : ∀ v ∈ db.vols, affectedVolB standId now v = false := by
      have hnil : db.vols.filter (affectedVolB standId now) = [] := by
        cases hfil : db.vols.filter (affectedVolB standId now) with
        | nil => rfl
        | cons w tl => exact absurd (hfil ▸ (Nat.succ_pos tl.length)) hc
      intro v hv
      exact Bool.eq_false_iff.2 fun ht =>
        (List.filter_eq_nil_iff.1 hnil v hv) ht
    have hmap : db.vols.map (fun v =>
        if affectedVolB standId now v then
          { v with statut := VolStatut.ATTENTE, stand_alloue := none }
        else v) = db.vols := by
      have h1 : db.vols.map (fun v =>
          if affectedVolB standId now v then
            { v with statut := VolStatut.ATTENTE, stand_alloue := none }
          else v) = db.vols.map id := by
        refine List.map_congr_left fun v hv => ?_
        rw [hnone v hv]
        rfl
      rw [h1, List.map_id]
    simp [hc, hmap]

/-! ## Preservation of the stand-reference/status relationship (claim C2) -/

theorem volsOk_updateVolAlloue {vols : List Vol} {volId standId : Nat}
    (h : ∀ v ∈ vols, volOk v) :
    ∀ v ∈ updateVolAlloue vols volId standId, volOk v := by
  intro v hv
  obtain ⟨r, hr, rfl⟩ := List.mem_map.1 hv
  by_cases hid : r.id = volId
  · simp [hid, volOk]
  · simp only [hid, if_false]
    exact h r hr

theorem volsOk_resetVol {vols : List Vol} {volId : Nat}
    (h : ∀ v ∈ vols, volOk v) :
    ∀ v ∈ resetVol vols volId, volOk v := by
  intro v hv
  obtain ⟨r, hr, rfl⟩ := List.mem_map.1 hv
  by_cases hid : r.id = volId
  · simp [hid, volOk]
  · simp only [hid, if_false]
    exact h r hr

theorem runVols_standIffStatut (stands : List Stand) :
    ∀ (pending : List Vol) (db : DB) (a u : Nat),
      standIffStatut db →
      standIffStatut (runVols stands db pending a u).2 := by
  intro pending
  induction pending with
  | nil =>
    intro db a u h
    simpa [runVols] using h
  | cons vol rest ih =>
    intro db a u h
    rcases hA : vol.avion with _ | av <;>
      rcases hD : vol.date_heure_debut_occupation with _ | d <;>
        rcases hF : vol.date_heure_fin_occupation with _ | f
    case some.some.some =>
      cases hbs : bestStand db av d f stands with
      | none =>
        simp only [runVols, hA, hD, hF, hbs]
        exact ih db a (u + 1) h
      | some best =>
        simp only [runVols, hA, hD, hF, hbs]
        refine ih _ (a + 1) u ?_
        intro v hv
        exact volsOk_updateVolAlloue h v hv
    all_goals
      simp only [runVols, hA, hD, hF]
      exact ih db a (u + 1) h

theorem allouer_standIffStatut (db : DB) (volsScope : Option (Vol → Bool))
    (h : standIffStatut db) :
    standIffStatut (allouer_stands_optimise db volsScope).2 :=
  runVols_standIffStatut _ _ db 0 0 h

theorem reallouer_standIffStatut (db : DB) (volPk : Nat)
    (h : standIffStatut db) :
    standIffStatut (reallouer_vol_unique db volPk).2 := by
  unfold reallouer_vol_unique
  cases hfind : db.vols.find? (fun v => decide (v.id = volPk)) with
  | none => exact h
  | some vol =>
    by_cases hst : vol.statut = VolStatut.ALLOUE
    · cases hsa : vol.stand_alloue with
      | none =>
        simp only [hst, hsa, if_true]
        exact h
      | some oldId =>
        by_cases hinc : standHasActiveIncident db oldId = true
        · simp only [hst, hsa, hinc, if_true]
          have hdb1 : standIffStatut { db with vols := resetVol db.vols volPk } := by
            intro v hv
            exact volsOk_resetVol h v hv
          have hres := allouer_standIffStatut _
            (some fun v => decide (v.id = volPk)) hdb1
          split <;> exact hres
        · simp only [hst, hsa, hinc, if_false]
          exact h
    · simp only [hst, if_false]
      exact h

theorem cascade_standIffStatut (db : DB) (standId : Nat) (now : Int)
    (h : standIffStatut db) :
    standIffStatut (handle_incident_impact db standId now).2 := by
  unfold handle_incident_impact
  by_cases hc : 0 < (db.vols.filter (affectedVolB standId now)).length
  · simp only [hc, if_true]
    refine allouer_standIffStatut _ _ ?_
    intro v hv
    obtain ⟨r, hr, rfl⟩ := List.mem_map.1 hv
    by_cases ha : affectedVolB standId now r = true
    · simp [ha, volOk]
    · simp only [ha, if_false]
      exact h r hr
  · simp only [hc, if_false]
    exact h

theorem liberer_standIffStatut (db : DB) (now : Int)
    (h : standIffStatut db) :
    standIffStatut (liberer_stands_termines db now).2 := by
  intro v hv
  simp only [liberer_stands_termines] at hv
  obtain ⟨r, hr, rfl⟩ := List.mem_map.1 hv
  by_cases ht : volTermineB now r = true
  · simp only [ht, if_true]
    have hok := h r hr
    have hst : r.statut = VolStatut.ALLOUE := by
      simp only [volTermineB, Bool.and_eq_true, decide_eq_true_eq] at ht
      exact ht.1
    unfold volOk at hok ⊢
    constructor
    · intro _
      exact Or.inr rfl
    · intro _
      exact hok.2 (Or.inl hst)
  · simp only [ht, if_false]
    exact h r hr

/-- Claim C2 (amended): across the four core operations — batch allocation,
single reallocation, cascade release and completion sweep — each flight's
stand reference is non-null iff its status is `ALLOUE` or `TERMINE`.  The
stricter claimed invariant (non-null iff `ALLOUE`) is preserved by the first
three operations but broken by the completion sweep, which sets `TERMINE`
and keeps the stand reference (see `completion_sweep_violates_iff`). -/
theorem stand_ref_iff_status_amended (db : DB) (volsScope : Option (Vol → Bool))
    (volPk standId : Nat) (now now2 : Int) (h : standIffStatut db) :
    standIffStatut (allouer_stands_optimise db volsScope).2 ∧
    standIffStatut (reallouer_vol_unique db volPk).2 ∧
    standIffStatut (handle_incident_impact db standId now).2 ∧
    standIffStatut (liberer_stands_termines db now2).2 :=
  ⟨allouer_standIffStatut db volsScope h, reallouer_standIffStatut db volPk h,
   cascade_standIffStatut db standId now h, liberer_standIffStatut db now2 h⟩

/-- Witness for the amended claim C2, on the completion-sweep fixture. -/
theorem stand_ref_iff_status_amended_witness :
    standIffStatut dbC2 ∧
    standIffStatut (liberer_stands_termines dbC2 10).2 ∧
    standIffStatut (reallouer_vol_unique dbC2 1).2 :=
  ⟨by decide,
   (stand_ref_iff_status_amended dbC2 none 1 1 0 10 (by decide)).2.2.2,
   (stand_ref_iff_status_amended dbC2 none 1 1 0 10 (by decide)).2.1⟩

/-! ## The stand scan: output characterization (claims C4, C5, C10, C3) -/

theorem scanStands_fst_some {db : DB} {avion : Avion} {dtDebut dtFin : Int} :
    ∀ (l : List Stand) (acc : Option Stand) (s : Stand),
      (scanStands db avion dtDebut dtFin l acc).1 = some s →
      standQualifies db avion dtDebut dtFin s ∧ standExactDim avion s ∧ s ∈ l := by
  intro l
  induction l with
  | nil =>
    intro acc s h
    simp [scanStands] at h
  | cons t rest ih =>
    intro acc s h
    simp only [scanStands] at h
    split at h
    · obtain ⟨hq, hx, hm⟩ := ih acc s h
      exact ⟨hq, hx, List.mem_cons_of_mem _ hm⟩
    · rename_i hnc
      split at h
      · obtain ⟨hq, hx, hm⟩ := ih acc s h
        exact ⟨hq, hx, List.mem_cons_of_mem _ hm⟩
      · rename_i hconf
        split at h
        · rename_i hex
          cases h
          exact ⟨⟨not_not.1 hnc, by simpa using hconf⟩, hex, List.mem_cons_self t rest⟩
        · split at h
          · obtain ⟨hq, hx, hm⟩ := ih _ s h
            exact ⟨hq, hx, List.mem_cons_of_mem _ hm⟩
          · split at h
            · obtain ⟨hq, hx, hm⟩ := ih _ s h
              exact ⟨hq, hx, List.mem_cons_of_mem _ hm⟩
            · obtain ⟨hq, hx, hm⟩ := ih _ s h
              exact ⟨hq, hx, List.mem_cons_of_mem _ hm⟩

theorem scanStands_snd_some {db : DB} {avion : Avion} {dtDebut dtFin : Int} :
    ∀ (l : List Stand) (acc : Option Stand) (s : Stand),
      (scanStands db avion dtDebut dtFin l acc).2 = some s →
      acc = some s ∨ (standQualifies db avion dtDebut dtFin s ∧ s ∈ l) := by
  intro l
  induction l with
  | nil =>
    intro acc s h
    simp only [scanStands] at h
    exact Or.inl h
  | cons t rest ih =>
    intro acc s h
    simp only [scanStands] at h
    split at h
    · rcases ih acc s h with hl | hr
      · exact Or.inl hl
      · exact Or.inr ⟨hr.1, List.mem_cons_of_mem _ hr.2⟩
    · rename_i hnc
      split at h
      · rcases ih acc s h with hl | hr
        · exact Or.inl hl
        · exact Or.inr ⟨hr.1, List.mem_cons_of_mem _ hr.2⟩
      · rename_i hconf
        have hqt : standQualifies db avion dtDebut dtFin t :=
          ⟨not_not.1 hnc, by simpa using hconf⟩
        split at h
        · cases h
          exact Or.inl rfl
        · split at h
          · rcases ih _ s h with hl | hr
            · cases hl
              exact Or.inr ⟨hqt, List.mem_cons_self t rest⟩
            · exact Or.inr ⟨hr.1, List.mem_cons_of_mem _ hr.2⟩
          · split at h
            · rcases ih _ s h with hl | hr
              · cases hl
                exact Or.inr ⟨hqt, List.mem_cons_self t rest⟩
              · exact Or.inr ⟨hr.1, List.mem_cons_of_mem _ hr.2⟩
            · rcases ih _ s h with hl | hr
              · exact Or.inl hl
              · exact Or.inr ⟨hr.1, List.mem_cons_of_mem _ hr.2⟩

theorem bestStand_some {db : DB} {avion : Avion} {dtDebut dtFin : Int}
    {stands : List Stand} {s : Stand}
    (h : bestStand db avion dtDebut dtFin stands = some s) :
    standQualifies db avion dtDebut dtFin s ∧ s ∈ stands := by
  unfold bestStand at h
  rcases hsc : scanStands db avion dtDebut dtFin stands none with ⟨e, c⟩
  rw [hsc] at h
  cases e with
  | some e' =>
    have hfst := scanStands_fst_some stands none e' (by rw [hsc])
    have : e' = s := by simpa using h
    subst this
    exact ⟨hfst.1, hfst.2.2⟩
  | none =>
    have hsnd := scanStands_snd_some stands none s (by rw [hsc]; simpa using h)
    rcases hsnd with hl | hr
    · cases hl
    · exact hr

/-! ## Claim C4: exact-match priority -/

theorem scanStands_exact_prefix (db : DB) (avion : Avion) (dtDebut dtFin : Int)
    (s : Stand) (post : List Stand)
    (hq : standQualifies db avion dtDebut dtFin s) (hx : standExactDim avion s) :
    ∀ (pre : List Stand) (acc : Option Stand),
      (∀ t ∈ pre, ¬ (standQualifies db avion dtDebut dtFin t ∧ standExactDim avion t)) →
      (scanStands db avion dtDebut dtFin (pre ++ s :: post) acc).1 = some s := by
  intro pre
  induction pre with
  | nil =>
    intro acc _
    simp only [List.nil_append, scanStands]
    rw [if_neg (not_not_intro
      (show avion.longueur ≤ s.longueur ∧ avion.largeur ≤ s.largeur from hq.1))]
    rw [if_neg (show ¬ conflictExists db s.id dtDebut dtFin = true by simp [hq.2])]
    rw [if_pos (show s.longueur = avion.longueur ∧ s.largeur = avion.largeur from hx)]
  | cons t pre ih =>
    intro acc hpre
    have hpre' : ∀ x ∈ pre,
        ¬ (standQualifies db avion dtDebut dtFin x ∧ standExactDim avion x) :=
      fun x hx' => hpre x (List.mem_cons_of_mem _ hx')
    simp only [List.cons_append, scanStands]
    by_cases h1 : avion.longueur ≤ t.longueur ∧ avion.largeur ≤ t.largeur
    · rw [if_neg (not_not_intro h1)]
      by_cases h2 : conflictExists db t.id dtDebut dtFin = true
      · rw [if_pos h2]
        exact ih acc hpre'
      · rw [if_neg h2]
        have hqt : standQualifies db avion dtDebut dtFin t := ⟨h1, by simpa using h2⟩
        by_cases h3 : t.longueur = avion.longueur ∧ t.largeur = avion.largeur
        · exact absurd ⟨hqt, h3⟩ (hpre t (List.mem_cons_self t pre))
        · rw [if_neg h3]
          split
          · exact ih (some t) hpre'
          · split
            · exact ih (some t) hpre'
            · exact ih _ hpre'
    · rw [if_pos h1]
      exact ih acc hpre'

/-- Claim C4: if the scan order is `pre ++ s :: post` where `s` is
compatible, conflict-free and an exact dimensional match, and no stand
before `s` is a qualifying exact match, then the selection returns `s`:
the scan short-circuits at the first qualifying exact stand, regardless of
any smaller compatible stand seen earlier or appearing later. -/
theorem exact_match_priority (db : DB) (avion : Avion) (dtDebut dtFin : Int)
    (pre post : List Stand) (s : Stand)
    (hq : standQualifies db avion dtDebut dtFin s) (hx : standExactDim avion s)
    (hpre : ∀ t ∈ pre, ¬ (standQualifies db avion dtDebut dtFin t ∧ standExactDim avion t)) :
    bestStand db avion dtDebut dtFin (pre ++ s :: post) = some s := by
  have h := scanStands_exact_prefix db avion dtDebut dtFin s post hq hx pre none hpre
  unfold bestStand
  rcases hsc : scanStands db avion dtDebut dtFin (pre ++ s :: post) none with ⟨e, c⟩
  rw [hsc] at h
  cases e with
  | some e' => simpa using h
  | none => exact absurd h (by simp)

/-- C4 witness fixtures: a 12×12 stand scanned before a 10×10 stand. -/
def standC4B : Stand := ⟨4, "B", 1200, 1200, 1, true⟩

def standC4A : Stand := ⟨5, "A", 1000, 1000, 2, true⟩

def dbC4 : DB := ⟨[], [standC4B, standC4A], []⟩

/-- Witness for claim C4: for a 10×10 aircraft with the larger compatible
stand B scanned first, the exact stand A is returned. -/
theorem exact_match_priority_witness :
    bestStand dbC4 avion10 0 10 [standC4B, standC4A] = some standC4A :=
  exact_match_priority dbC4 avion10 0 10 [standC4B] [] standC4A
    (by decide) (by decide) (by decide)

/-! ## Claim C5: smallest-compatible tie-break -/

/-- What the scan guarantees on a no-exact-match run: the exact slot stays
empty, an empty compatible slot means nothing qualified, and a filled
compatible slot is either a qualifying stand of the scanned list that beats
the incoming accumulator, is globally area-minimal, and strictly beats every
qualifying stand scanned before it — or the untouched accumulator, not
beaten by anything scanned. -/
def scanInv (db : DB) (avion : Avion) (dtDebut dtFin : Int) (l : List Stand)
    (acc : Option Stand) (out : Option Stand × Option Stand) : Prop :=
  out.1 = none ∧
  (out.2 = none → acc = none ∧ ∀ t ∈ l, ¬ standQualifies db avion dtDebut dtFin t) ∧
  (∀ r, out.2 = some r →
    ((r ∈ l ∧ standQualifies db avion dtDebut dtFin r ∧
      (∀ b, acc = some b → surface r < surface b) ∧
      (∃ pre post, l = pre ++ r :: post ∧
        ∀ t ∈ pre, standQualifies db avion dtDebut dtFin t → surface r < surface t) ∧
      (∀ t ∈ l, standQualifies db avion dtDebut dtFin t → surface r ≤ surface t))
     ∨ (acc = some r ∧
        ∀ t ∈ l, standQualifies db avion dtDebut dtFin t → surface r ≤ surface t)))

theorem scanInv_skip {db : DB} {avion : Avion} {dtDebut dtFin : Int}
    {t : Stand} {rest : List Stand} {acc : Option Stand}
    {out : Option Stand × Option Stand}
    (hnq : ¬ standQualifies db avion dtDebut dtFin t)
    (h : scanInv db avion dtDebut dtFin rest acc out) :
    scanInv db avion dtDebut dtFin (t :: rest) acc out := by
  obtain ⟨h1, h2, h3⟩ := h
  refine ⟨h1, ?_, ?_⟩
  · intro hn
    obtain ⟨ha, hall⟩ := h2 hn
    refine ⟨ha, ?_⟩
    intro x hx
    rcases List.mem_cons.1 hx with rfl | hx'
    · exact hnq
    · exact hall x hx'
  · intro r hr
    rcases h3 r hr with hA | hB
    · obtain ⟨hm, hq, hacc, ⟨pre, post, hsplit, hpre⟩, hmin⟩ := hA
      refine Or.inl ⟨List.mem_cons_of_mem _ hm, hq, hacc,
        ⟨t :: pre, post, by rw [hsplit, List.cons_append], ?_⟩, ?_⟩
      · intro x hx
        rcases List.mem_cons.1 hx with rfl | hx'
        · exact fun hq' => absurd hq' hnq
        · exact hpre x hx'
      · intro x hx
        rcases List.mem_cons.1 hx with rfl | hx'
        · exact fun hq' => absurd hq' hnq
        · exact hmin x hx'
    · obtain ⟨hacc, hmin⟩ := hB
      refine Or.inr ⟨hacc, ?_⟩
      intro x hx
      rcases List.mem_cons.1 hx with rfl | hx'
      · exact fun hq' => absurd hq' hnq
      · exact hmin x hx'

theorem scanInv_take {db : DB} {avion : Avion} {dtDebut dtFin : Int}
    {t : Stand} {rest : List Stand} {acc : Option Stand}
    {out : Option Stand × Option Stand}
    (hq : standQualifies db avion dtDebut dtFin t)
    (hcmp : ∀ b, acc = some b → surface t < surface b)
    (h : scanInv db avion dtDebut dtFin rest (some t) out) :
    scanInv db avion dtDebut dtFin (t :: rest) acc out := by
  obtain ⟨h1, h2, h3⟩ := h
  refine ⟨h1, ?_, ?_⟩
  · intro hn
    exact absurd (h2 hn).1 (by simp)
  · intro r hr
    rcases h3 r hr with hA | hB
    · obtain ⟨hm, hqr, haccr, ⟨pre, post, hsplit, hpre⟩, hmin⟩ := hA
      have hrt : surface r < surface t := haccr t rfl
      refine Or.inl ⟨List.mem_cons_of_mem _ hm, hqr, ?_,
        ⟨t :: pre, post, by rw [hsplit, List.cons_append], ?_⟩, ?_⟩
      · intro b hb
        exact lt_trans hrt (hcmp b hb)
      · intro x hx
        rcases List.mem_cons.1 hx with rfl | hx'
        · exact fun _ => hrt
        · exact hpre x hx'
      · intro x hx
        rcases List.mem_cons.1 hx with rfl | hx'
        · exact fun _ => le_of_lt hrt
        · exact hmin x hx'
    · obtain ⟨hacc, hmin⟩ := hB
      have hrt : r = t := by
        have := hacc.symm
        exact (Option.some.inj this)
      subst hrt
      refine Or.inl ⟨List.mem_cons_self r rest, hq, ?_, ⟨[], rest, rfl, by simp⟩, ?_⟩
      · intro b hb
        exact hcmp b hb
      · intro x hx
        rcases List.mem_cons.1 hx with rfl | hx'
        · exact fun _ => le_refl _
        · exact hmin x hx'

theorem scanInv_keepOld {db : DB} {avion : Avion} {dtDebut dtFin : Int}
    {t b : Stand} {rest : List Stand} {acc : Option Stand}
    {out : Option Stand × Option Stand}
    (hq : standQualifies db avion dtDebut dtFin t)
    (hacc : acc = some b) (hbt : surface b ≤ surface t)
    (h : scanInv db avion dtDebut dtFin rest (some b) out) :
    scanInv db avion dtDebut dtFin (t :: rest) acc out := by
  obtain ⟨h1, h2, h3⟩ := h
  refine ⟨h1, ?_, ?_⟩
  · intro hn
    exact absurd (h2 hn).1 (by simp)
  · intro r hr
    rcases h3 r hr with hA | hB
    · obtain ⟨hm, hqr, haccr, ⟨pre, post, hsplit, hpre⟩, hmin⟩ := hA
      have hrb : surface r < surface b := haccr b rfl
      refine Or.inl ⟨List.mem_cons_of_mem _ hm, hqr, ?_,
        ⟨t :: pre, post, by rw [hsplit, List.cons_append], ?_⟩, ?_⟩
      · intro b0 hb0
        rw [hacc] at hb0
        cases Option.some.inj hb0
        exact hrb
      · intro x hx
        rcases List.mem_cons.1 hx with rfl | hx'
        · exact fun _ => lt_of_lt_of_le hrb hbt
        · exact hpre x hx'
      · intro x hx
        rcases List.mem_cons.1 hx with rfl | hx'
        · exact fun _ => le_of_lt (lt_of_lt_of_le hrb hbt)
        · exact hmin x hx'
    · obtain ⟨haccb, hmin⟩ := hB
      have hrb : b = r := Option.some.inj haccb
      subst hrb
      refine Or.inr ⟨hacc, ?_⟩
      intro x hx
      rcases List.mem_cons.1 hx with rfl | hx'
      · exact fun _ => hbt
      · exact hmin x hx'

theorem scanStands_no_exact (db : DB) (avion : Avion) (dtDebut dtFin : Int) :
    ∀ (l : List Stand) (acc : Option Stand),
      (∀ t ∈ l, standQualifies db avion dtDebut dtFin t → ¬ standExactDim avion t) →
      scanInv db avion dtDebut dtFin l acc (scanStands db avion dtDebut dtFin l acc) := by
  intro l
  induction l with
  | nil =>
    intro acc _
    refine ⟨rfl, fun h => ⟨h, by simp⟩, fun r hr => Or.inr ⟨hr, by simp⟩⟩
  | cons t rest ih =>
    intro acc hne
    have hneR : ∀ x ∈ rest, standQualifies db avion dtDebut dtFin x →
        ¬ standExactDim avion x :=
      fun x hx => hne x (List.mem_cons_of_mem _ hx)
    simp only [scanStands]
    by_cases h1 : avion.longueur ≤ t.longueur ∧ avion.largeur ≤ t.largeur
    · rw [if_neg (not_not_intro h1)]
      by_cases h2 : conflictExists db t.id dtDebut dtFin = true
      · rw [if_pos h2]
        exact scanInv_skip (fun hq => absurd h2 (by simp [hq.2])) (ih acc hneR)
      · rw [if_neg h2]
        have hqt : standQualifies db avion dtDebut dtFin t := ⟨h1, by simpa using h2⟩
        by_cases h3 : t.longueur = avion.longueur ∧ t.largeur = avion.largeur
        · exact absurd h3 (hne t (List.mem_cons_self t rest) hqt)
        · rw [if_neg h3]
          cases acc with
          | none =>
            exact scanInv_take hqt (fun b hb => nomatch hb) (ih (some t) hneR)
          | some b =>
            show scanInv db avion dtDebut dtFin (t :: rest) (some b)
              (if t.longueur * t.largeur < b.longueur * b.largeur then
                 scanStands db avion dtDebut dtFin rest (some t)
               else scanStands db avion dtDebut dtFin rest (some b))
            by_cases h4 : t.longueur * t.largeur < b.longueur * b.largeur
            · rw [if_pos h4]
              refine scanInv_take hqt ?_ (ih (some t) hneR)
              intro b0 hb0
              cases Option.some.inj hb0
              exact h4
            · rw [if_neg h4]
              exact scanInv_keepOld hqt rfl (le_of_not_lt h4) (ih (some b) hneR)
    · rw [if_pos h1]
      exact scanInv_skip (fun hq => h1 hq.1) (ih acc hneR)

/-- Claim C5: when no qualifying stand is an exact match, the selection
returns `none` exactly when nothing qualifies, and otherwise returns a
qualifying stand of minimal footprint surface such that every qualifying
stand scanned before it has strictly greater surface — i.e. the smallest
compatible stand, first-seen winning ties. -/
theorem smallest_compatible_tiebreak (db : DB) (avion : Avion)
    (dtDebut dtFin : Int) (stands : List Stand)
    (hne : ∀ t ∈ stands, standQualifies db avion dtDebut dtFin t →
      ¬ standExactDim avion t) :
    (bestStand db avion dtDebut dtFin stands = none →
       ∀ t ∈ stands, ¬ standQualifies db avion dtDebut dtFin t) ∧
    (∀ r, bestStand db avion dtDebut dtFin stands = some r →
       r ∈ stands ∧ standQualifies db avion dtDebut dtFin r ∧
       (∀ t ∈ stands, standQualifies db avion dtDebut dtFin t →
          surface r ≤ surface t) ∧
       ∃ pre post, stands = pre ++ r :: post ∧
         ∀ t ∈ pre, standQualifies db avion dtDebut dtFin t →
           surface r < surface t) := by
  have hinv := scanStands_no_exact db avion dtDebut dtFin stands none hne
  unfold bestStand
  rcases hsc : scanStands db avion dtDebut dtFin stands none with ⟨e, c⟩
  rw [hsc] at hinv
  obtain ⟨h1, h2, h3⟩ := hinv
  cases e with
  | some e' => exact absurd h1 (by simp)
  | none =>
    constructor
    · intro hb
      exact (h2 (by simpa using hb)).2
    · intro r hr
      rcases h3 r (by simpa using hr) with hA | hB
      · obtain ⟨hm, hq, _, hsplit, hmin⟩ := hA
        exact ⟨hm, hq, hmin, hsplit⟩
      · exact absurd hB.1 (by simp)

/-- C5 witness fixtures: a 5×5 aircraft; stand C (8×8, surface 64) is
scanned before stand D (7×9, surface 63); neither is exact. -/
def avionC5 : Avion := ⟨500, 500⟩

def standC5C : Stand := ⟨6, "C", 800, 800, 1, true⟩

def standC5D : Stand := ⟨7, "D", 700, 900, 2, true⟩

def dbC5 : DB := ⟨[], [standC5C, standC5D], []⟩

/-- Witness for claim C5: D wins although scanned later, being the
qualifying stand of smallest surface. -/
theorem smallest_compatible_tiebreak_witness :
    bestStand dbC5 avionC5 0 10 [standC5C, standC5D] = some standC5D ∧
    standQualifies dbC5 avionC5 0 10 standC5D ∧
    (∀ t ∈ [standC5C, standC5D], standQualifies dbC5 avionC5 0 10 t →
       surface standC5D ≤ surface t) := by
  have h := (smallest_compatible_tiebreak dbC5 avionC5 0 10 [standC5C, standC5D]
    (by decide)).2 standC5D (by decide)
  exact ⟨by decide, h.2.1, h.2.2.1⟩

/-! ## Claim C7: incomplete-data flights never match -/

theorem mem_updateVolAlloue_of_ne {vols : List Vol} {v : Vol} (hv : v ∈ vols)
    {volId standId : Nat} (h : v.id ≠ volId) :
    v ∈ updateVolAlloue vols volId standId := by
  unfold updateVolAlloue
  exact List.mem_map.2 ⟨v, hv, by simp [h]⟩

/-- Rows whose primary key is not among the pending ids are never rewritten
by the allocation loop. -/
theorem runVols_preserves_other (stands : List Stand) :
    ∀ (pending : List Vol) (db : DB) (a u : Nat) (v : Vol),
      v ∈ db.vols → v.id ∉ pending.map Vol.id →
      v ∈ (runVols stands db pending a u).2.vols := by
  intro pending
  induction pending with
  | nil =>
    intro db a u v hv _
    simpa [runVols] using hv
  | cons vol rest ih =>
    intro db a u v hv hid
    have hne : v.id ≠ vol.id := fun h => hid (by rw [List.map_cons]; exact h ▸ List.mem_cons_self _ _)
    have hidR : v.id ∉ rest.map Vol.id := fun h => hid (by rw [List.map_cons]; exact List.mem_cons_of_mem _ h)
    rcases hA : vol.avion with _ | av <;>
      rcases hD : vol.date_heure_debut_occupation with _ | d <;>
        rcases hF : vol.date_heure_fin_occupation with _ | f
    case some.some.some =>
      cases hbs : bestStand db av d f stands with
      | none =>
        simp only [runVols, hA, hD, hF, hbs]
        exact ih db a (u + 1) v hv hidR
      | some best =>
        simp only [runVols, hA, hD, hF, hbs]
        exact ih _ (a + 1) u v (mem_updateVolAlloue_of_ne hv hne) hidR
    all_goals
      simp only [runVols, hA, hD, hF]
      exact ih db a (u + 1) v hv hidR

/-- An incomplete pending flight's row survives the allocation loop
untouched (primary keys assumed unique). -/
theorem runVols_mem_incomplete (stands : List Stand) :
    ∀ (pending : List Vol) (db : DB) (a u : Nat),
      (pending.map Vol.id).Nodup →
      ∀ v ∈ pending, volIncomplete v → v ∈ db.vols →
        v ∈ (runVols stands db pending a u).2.vols := by
  intro pending
  induction pending with
  | nil =>
    intro db a u _ v hv
    exact absurd hv (List.not_mem_nil v)
  | cons vol rest ih =>
    intro db a u hnd v hv hinc hmem
    rw [List.map_cons] at hnd
    have hnd' := List.nodup_cons.1 hnd
    rcases List.mem_cons.1 hv with rfl | hvr
    · -- the incomplete flight itself: its branch leaves the state unchanged
      rcases hA : v.avion with _ | av <;>
        rcases hD : v.date_heure_debut_occupation with _ | d <;>
          rcases hF : v.date_heure_fin_occupation with _ | f
      case some.some.some =>
        rcases hinc with h | h | h
        · rw [hA] at h; cases h
        · rw [hD] at h; cases h
        · rw [hF] at h; cases h
      all_goals
        simp only [runVols, hA, hD, hF]
        exact runVols_preserves_other stands rest db a (u + 1) v hmem hnd'.1
    · have hne : v.id ≠ vol.id := by
        intro h
        exact hnd'.1 (h ▸ List.mem_map_of_mem Vol.id hvr)
      rcases hA : vol.avion with _ | av <;>
        rcases hD : vol.date_heure_debut_occupation with _ | d <;>
          rcases hF : vol.date_heure_fin_occupation with _ | f
      case some.some.some =>
        cases hbs : bestStand db av d f stands with
        | none =>
          simp only [runVols, hA, hD, hF, hbs]
          exact ih db a (u + 1) hnd'.2 v hvr hinc hmem
        | some best =>
          simp only [runVols, hA, hD, hF, hbs]
          exact ih _ (a + 1) u hnd'.2 v hvr hinc
            (mem_updateVolAlloue_of_ne hmem hne)
      all_goals
        simp only [runVols, hA, hD, hF]
        exact ih db a (u + 1) hnd'.2 v hvr hinc hmem

/-- Every incomplete pending flight contributes to the unallocated
counter. -/
theorem runVols_count (stands : List Stand) :
    ∀ (pending : List Vol) (db : DB) (a u : Nat),
      u + (pending.filter (fun v => decide (volIncomplete v))).length ≤
        (runVols stands db pending a u).1.2 := by
  intro pending
  induction pending with
  | nil =>
    intro db a u
    simp [runVols]
  | cons vol rest ih =>
    intro db a u
    rcases hA : vol.avion with _ | av <;>
      rcases hD : vol.date_heure_debut_occupation with _ | d <;>
        rcases hF : vol.date_heure_fin_occupation with _ | f
    case some.some.some =>
      have hflt : decide (volIncomplete vol) = false := by
        simp [volIncomplete, hA, hD, hF]
      have hfeq : List.filter (fun v => decide (volIncomplete v)) (vol :: rest) =
          List.filter (fun v => decide (volIncomplete v)) rest := by
        simp [List.filter_cons, hflt]
      cases hbs : bestStand db av d f stands with
      | none =>
        simp only [runVols, hA, hD, hF, hbs, hfeq]
        exact le_trans (by omega) (ih db a (u + 1))
      | some best =>
        simp only [runVols, hA, hD, hF, hbs, hfeq]
        exact ih _ (a + 1) u
    all_goals
      have hflt : decide (volIncomplete vol) = true := by
        simp [volIncomplete, hA, hD, hF]
      have hfeq : List.filter (fun v => decide (volIncomplete v)) (vol :: rest) =
          vol :: List.filter (fun v => decide (volIncomplete v)) rest := by
        simp [List.filter_cons, hflt]
      simp only [runVols, hA, hD, hF, hfeq, List.length_cons]
      exact le_trans (by omega) (ih db a (u + 1))

/-- Claim C7: a pending flight with a missing aircraft reference or a
missing interval endpoint is never assigned a stand — its row survives the
batch unchanged, still `ATTENTE` — and every such flight counts towards the
returned unallocated total, regardless of stand availability. -/
theorem incomplete_flights_never_match (db : DB) (volsScope : Option (Vol → Bool))
    (hids : idsNodup db) :
    (∀ v ∈ volsATraiter db volsScope, volIncomplete v →
       v.statut = VolStatut.ATTENTE ∧
       v ∈ (allouer_stands_optimise db volsScope).2.vols) ∧
    ((volsATraiter db volsScope).filter (fun v => decide (volIncomplete v))).length ≤
      (allouer_stands_optimise db volsScope).1.2 := by
  constructor
  · intro v hv hinc
    refine ⟨(mem_volsATraiter hv).2, ?_⟩
    exact runVols_mem_incomplete _ _ db 0 0 (volsATraiter_ids_nodup _ hids)
      v hv hinc (mem_volsATraiter hv).1
  · simpa using runVols_count (standsActifs db) (volsATraiter db volsScope) db 0 0

/-- C7 witness fixture: a pending flight with no aircraft, next to a free
compatible stand. -/
def volC7 : Vol := ⟨1, "AF007", none, some 0, some 5, VolStatut.ATTENTE, none⟩

def dbC7 : DB := ⟨[volC7], [standS1], []⟩

/-- Witness for claim C7: the aircraft-less flight stays `ATTENTE` in the
final state and the run returns `(0, 1)` although a free compatible stand
exists. -/
theorem incomplete_flights_never_match_witness :
    idsNodup dbC7 ∧
    (∀ v ∈ volsATraiter dbC7 none, volIncomplete v →
       v.statut = VolStatut.ATTENTE ∧
       v ∈ (allouer_stands_optimise dbC7 none).2.vols) ∧
    (allouer_stands_optimise dbC7 none).1 = (0, 1) :=
  ⟨by decide, (incomplete_flights_never_match dbC7 none (by decide)).1, by decide⟩

/-! ## Claim C3: no double-booking, commits visible within the batch -/

theorem conflict_false_row {db : DB} {standId : Nat} {dtDebut dtFin : Int}
    (h : conflictExists db standId dtDebut dtFin = false)
    {v : Vol} (hv : v ∈ db.vols) (hst : v.statut = VolStatut.ALLOUE)
    (hsa : v.stand_alloue = some standId) :
    finLeB v dtDebut = true ∨ debutGeB v dtFin = true := by
  unfold conflictExists at h
  rw [List.any_eq_false] at h
  have h2 := h v hv
  by_contra hcon
  push_neg at hcon
  obtain ⟨hL, hR⟩ := hcon
  exact h2 (by simp [hst, hsa, Bool.eq_false_iff.2 hL, Bool.eq_false_iff.2 hR])

theorem updateVolAlloue_fields {vols : List Vol} {volId standId : Nat} {r : Vol}
    (hr : r ∈ updateVolAlloue vols volId standId) :
    ∃ r0 ∈ vols, r.id = r0.id ∧
      r.date_heure_debut_occupation = r0.date_heure_debut_occupation ∧
      r.date_heure_fin_occupation = r0.date_heure_fin_occupation ∧
      ((r0.id = volId ∧
        r = { r0 with statut := VolStatut.ALLOUE, stand_alloue := some standId }) ∨
       (r0.id ≠ volId ∧ r = r0)) := by
  obtain ⟨r0, hr0, rfl⟩ := List.mem_map.1 hr
  by_cases h : r0.id = volId
  · exact ⟨r0, hr0, by simp [h], by simp [h], by simp [h], Or.inl ⟨h, by simp [h]⟩⟩
  · exact ⟨r0, hr0, by simp [h], by simp [h], by simp [h], Or.inr ⟨h, by simp [h]⟩⟩

theorem runVols_noDouble (stands : List Stand) :
    ∀ (pending : List Vol) (db : DB) (a u : Nat),
      idsNodup db → noDoubleBooking db → coreIntact db.vols pending →
      noDoubleBooking (runVols stands db pending a u).2 := by
  intro pending
  induction pending with
  | nil =>
    intro db a u _ h2 _
    simpa [runVols] using h2
  | cons vol rest ih =>
    intro db a u h1 h2 h3
    have h3R : coreIntact db.vols rest :=
      fun v hv => h3 v (List.mem_cons_of_mem _ hv)
    rcases hA : vol.avion with _ | av <;>
      rcases hD : vol.date_heure_debut_occupation with _ | d <;>
        rcases hF : vol.date_heure_fin_occupation with _ | f
    case some.some.some =>
      cases hbs : bestStand db av d f stands with
      | none =>
        simp only [runVols, hA, hD, hF, hbs]
        exact ih db a (u + 1) h1 h2 h3R
      | some best =>
        simp only [runVols, hA, hD, hF, hbs]
        obtain ⟨hqual, -⟩ := bestStand_some hbs
        have hconf : conflictExists db best.id d f = false := hqual.2
        refine ih _ (a + 1) u ?_ ?_ ?_
        · show ((updateVolAlloue db.vols vol.id best.id).map Vol.id).Nodup
          rw [updateVolAlloue_map_id]
          exact h1
        · -- no double booking after this single commit
          intro v1 hv1 v2 hv2 hne hst1 hst2 hsome1 heq hd1 hf1 hd2 hf2
          obtain ⟨r1, hr1, hid1, hdb1, hfb1, hcase1⟩ := updateVolAlloue_fields hv1
          obtain ⟨r2, hr2, hid2, hdb2, hfb2, hcase2⟩ := updateVolAlloue_fields hv2
          rcases hcase1 with ⟨he1, hv1eq⟩ | ⟨he1, hv1eq⟩ <;>
            rcases hcase2 with ⟨he2, hv2eq⟩ | ⟨he2, hv2eq⟩
          · exact absurd (by rw [hid1, hid2, he1, he2]) hne
          · -- v1 is the fresh commit, v2 an untouched row
            subst hv1eq
            subst hv2eq
            have hr1d : r1.date_heure_debut_occupation = some d := by
              have := (h3 vol (List.mem_cons_self vol rest) r1 hr1 he1).1
              rw [this, hD]
            have hr1f : r1.date_heure_fin_occupation = some f := by
              have := (h3 vol (List.mem_cons_self vol rest) r1 hr1 he1).2
              rw [this, hF]
            have hsa2 : v2.stand_alloue = some best.id := by
              simpa using heq.symm
            have hor := conflict_false_row hconf hr2 hst2 hsa2
            obtain ⟨d2, hd2'⟩ := Option.isSome_iff_exists.1 hd2
            obtain ⟨f2, hf2'⟩ := Option.isSome_iff_exists.1 hf2
            simp only [hd2', hf2', hr1d, hr1f, Option.getD_some]
            rw [finLeB_some hf2', debutGeB_some hd2'] at hor
            simp only [decide_eq_true_eq] at hor
            intro hov
            obtain ⟨ho1, ho2⟩ := hov
            rcases hor with hle | hge
            · omega
            · omega
          · -- v2 is the fresh commit, v1 an untouched row
            subst hv1eq
            subst hv2eq
            have hr2d : r2.date_heure_debut_occupation = some d := by
              have := (h3 vol (List.mem_cons_self vol rest) r2 hr2 he2).1
              rw [this, hD]
            have hr2f : r2.date_heure_fin_occupation = some f := by
              have := (h3 vol (List.mem_cons_self vol rest) r2 hr2 he2).2
              rw [this, hF]
            have hsa1 : v1.stand_alloue = some best.id := by
              simpa using heq
            have hor := conflict_false_row hconf hr1 hst1 hsa1
            obtain ⟨d1, hd1'⟩ := Option.isSome_iff_exists.1 hd1
            obtain ⟨f1, hf1'⟩ := Option.isSome_iff_exists.1 hf1
            simp only [hd1', hf1', hr2d, hr2f, Option.getD_some]
            rw [finLeB_some hf1', debutGeB_some hd1'] at hor
            simp only [decide_eq_true_eq] at hor
            intro hov
            obtain ⟨ho1, ho2⟩ := hov
            rcases hor with hle | hge
            · omega
            · omega
          · -- both rows untouched: the old invariant applies
            subst hv1eq
            subst hv2eq
            exact h2 v1 hr1 v2 hr2 hne hst1 hst2 hsome1 heq hd1 hf1 hd2 hf2
        · -- intervals of remaining pending flights are untouched
          intro v hv r hr hid
          obtain ⟨r0, hr0, hid0, hdb0, hfb0, -⟩ := updateVolAlloue_fields hr
          have := h3R v hv r0 hr0 (by rw [← hid0, hid])
          exact ⟨by rw [hdb0, this.1], by rw [hfb0, this.2]⟩
    all_goals
      simp only [runVols, hA, hD, hF]
      exact ih db a (u + 1) h1 h2 h3R

/-- Claim C3: the batch engine preserves the no-double-booking invariant.
Each flight's commit is written to the state read by the conflict checks of
later flights in the same run, so on a state with unique primary keys and
no truly overlapping pair of allocated flights on a common stand, the state
after `allouer_stands_optimise` again has no such pair. -/
theorem batch_no_double_booking (db : DB) (volsScope : Option (Vol → Bool))
    (hids : idsNodup db) (hndb : noDoubleBooking db) :
    noDoubleBooking (allouer_stands_optimise db volsScope).2 := by
  refine runVols_noDouble _ _ db 0 0 hids hndb ?_
  intro v hv r hr hid
  have hvin := (mem_volsATraiter hv).1
  have hrv : r = v := List.inj_on_of_nodup_map hids hr hvin hid
  subst hrv
  exact ⟨rfl, rfl⟩

/-- C3 witness fixtures: two pending flights with overlapping intervals and
a single stand. -/
def volC3a : Vol := ⟨1, "AF031", some avion10, some 0, some 10, VolStatut.ATTENTE, none⟩

def volC3b : Vol := ⟨2, "AF032", some avion10, some 5, some 15, VolStatut.ATTENTE, none⟩

def dbC3 : DB := ⟨[volC3a, volC3b], [standS1], []⟩

/-- Witness for claim C3: the run allocates the first flight and, seeing
that commit, refuses the overlapping second one — one allocated, one
unallocated, and the invariant holds afterwards. -/
theorem batch_no_double_booking_witness :
    idsNodup dbC3 ∧ noDoubleBooking dbC3 ∧
    noDoubleBooking (allouer_stands_optimise dbC3 none).2 ∧
    (allouer_stands_optimise dbC3 none).1 = (1, 1) :=
  ⟨by decide, by decide,
   batch_no_double_booking dbC3 none (by decide) (by decide), by decide⟩

/-! ## Claim C10: a successful reallocation never re-selects the old stand -/

theorem resetVol_fields {vols : List Vol} {volId : Nat} {r : Vol}
    (hr : r ∈ resetVol vols volId) :
    ∃ r0 ∈ vols,
      ((r0.id = volId ∧
        r = { r0 with statut := VolStatut.ATTENTE, stand_alloue := none }) ∨
       (r0.id ≠ volId ∧ r = r0)) := by
  obtain ⟨r0, hr0, rfl⟩ := List.mem_map.1 hr
  by_cases h : r0.id = volId
  · exact ⟨r0, hr0, Or.inl ⟨h, by simp [h]⟩⟩
  · exact ⟨r0, hr0, Or.inr ⟨h, by simp [h]⟩⟩

/-- Claim C10: whenever `reallouer_vol_unique` reports success, the flight's
row carries a stand different from the one it had before the call: the old
stand was required to have an active incident, and the engine's eligible
pool excludes every stand with an `OUVERT`/`ENCOURS` incident. -/
theorem realloc_new_stand_differs (db : DB) (volPk : Nat) (vol : Vol)
    (hids : idsNodup db)
    (hfind : db.vols.find? (fun v => decide (v.id = volPk)) = some vol)
    (hsucc : (reallouer_vol_unique db volPk).1.1 = true) :
    ∀ r ∈ (reallouer_vol_unique db volPk).2.vols, r.id = volPk →
      r.stand_alloue.isSome = true ∧ r.stand_alloue ≠ vol.stand_alloue := by
  have hvol_mem : vol ∈ db.vols := List.mem_of_find?_eq_some hfind
  have hvol_id : vol.id = volPk := by
    have := List.find?_some hfind
    simpa using this
  unfold reallouer_vol_unique at hsucc ⊢
  rw [hfind] at hsucc ⊢
  simp only [] at hsucc ⊢
  by_cases hst : vol.statut = VolStatut.ALLOUE
  case neg => simp [hst] at hsucc
  cases hsa : vol.stand_alloue with
  | none =>
    rw [hsa] at hsucc
    simp [hst] at hsucc
  | some oldId =>
    rw [hsa] at hsucc
    simp only [] at hsucc ⊢
    by_cases hai : standHasActiveIncident db oldId = true
    case neg => simp [hst, hai] at hsucc
    simp only [hst, hai, eq_self_iff_true, if_true] at hsucc ⊢
    by_cases halloc : 0 < (allouer_stands_optimise
        { db with vols := resetVol db.vols volPk }
        (some fun v => decide (v.id = volPk))).1.1
    case neg => simp [halloc] at hsucc
    rw [if_pos halloc] at hsucc ⊢
    -- from here on, analyse the engine invocation
    have h1' : idsNodup { db with vols := resetVol db.vols volPk } := by
      show ((resetVol db.vols volPk).map Vol.id).Nodup
      rw [resetVol_map_id]
      exact hids
    have hpend_all : ∀ w ∈ volsATraiter { db with vols := resetVol db.vols volPk }
        (some fun v => decide (v.id = volPk)),
        w = { vol with statut := VolStatut.ATTENTE, stand_alloue := none } := by
      intro w hw
      have hmem := (mem_volsATraiter hw).1
      have hwid : w.id = volPk := by
        have := (List.mem_filter.1 (mem_sortVols.1 hw)).2
        simp only [volsFilterB, Bool.and_eq_true, decide_eq_true_eq] at this
        exact this.1
      obtain ⟨r0, hr0, hcase⟩ := resetVol_fields hmem
      rcases hcase with ⟨hre, rfl⟩ | ⟨hre, rfl⟩
      · have : r0 = vol :=
          List.inj_on_of_nodup_map hids hr0 hvol_mem (by rw [hre, hvol_id])
        rw [this]
      · exact absurd (hwid ▸ hre) (fun h => h rfl)
    cases hpend : volsATraiter { db with vols := resetVol db.vols volPk }
        (some fun v => decide (v.id = volPk)) with
    | nil =>
      rw [allouer_of_empty _ _ hpend] at halloc
      exact absurd halloc (by simp)
    | cons w tl =>
      have hw : w = { vol with statut := VolStatut.ATTENTE, stand_alloue := none } :=
        hpend_all w (hpend ▸ List.mem_cons_self w tl)
      have htl : tl = [] := by
        cases tl with
        | nil => rfl
        | cons y tys =>
          have hy : y = { vol with statut := VolStatut.ATTENTE, stand_alloue := none } :=
            hpend_all y (hpend ▸ List.mem_cons_of_mem _ (List.mem_cons_self y tys))
          have hnd := @volsATraiter_ids_nodup
            { db with vols := resetVol db.vols volPk }
            (some fun v => decide (v.id = volPk)) h1'
          rw [hpend, hw, hy] at hnd
          simp at hnd
      subst hw
      subst htl
      have heng : allouer_stands_optimise { db with vols := resetVol db.vols volPk }
          (some fun v => decide (v.id = volPk)) =
          runVols (standsActifs { db with vols := resetVol db.vols volPk })
            { db with vols := resetVol db.vols volPk }
            [{ vol with statut := VolStatut.ATTENTE, stand_alloue := none }] 0 0 := by
        unfold allouer_stands_optimise
        rw [hpend]
      rcases hA : vol.avion with _ | av
      · rw [heng] at halloc
        simp [runVols, hA] at halloc
      rcases hD : vol.date_heure_debut_occupation with _ | d
      · rw [heng] at halloc
        simp [runVols, hA, hD] at halloc
      rcases hF : vol.date_heure_fin_occupation with _ | f
      · rw [heng] at halloc
        simp [runVols, hA, hD, hF] at halloc
      cases hbs : bestStand { db with vols := resetVol db.vols volPk } av d f
          (standsActifs { db with vols := resetVol db.vols volPk }) with
      | none =>
        rw [heng] at halloc
        simp [runVols, hA, hD, hF, hbs] at halloc
      | some best =>
        have hbni : standHasActiveIncident db best.id = false :=
          (mem_standsActifs (bestStand_some hbs).2).2.2
        have hbne : best.id ≠ oldId := by
          intro h
          rw [h, hai] at hbni
          cases hbni
        have hrun : runVols (standsActifs { db with vols := resetVol db.vols volPk })
            { db with vols := resetVol db.vols volPk }
            [{ vol with statut := VolStatut.ATTENTE, stand_alloue := none }] 0 0 =
            ((1, 0),
             { db with vols := updateVolAlloue (resetVol db.vols volPk) vol.id best.id }) := by
          simp [runVols, hA, hD, hF, hbs]
        rw [heng, hrun]
        intro r hr hid
        obtain ⟨r0, hr0, hid0, -, -, hcase⟩ := updateVolAlloue_fields hr
        rcases hcase with ⟨-, rfl⟩ | ⟨hne0, rfl⟩
        · constructor
          · simp
          · simp [hbne]
        · exact absurd ((hid0 ▸ hid) ▸ hvol_id.symm) hne0

/-- C10 witness fixtures: flight 7 allocated to stand 1, which has an open
incident; stand 2 is an eligible alternative. -/
def volC10 : Vol := ⟨7, "AF107", some avion10, some 5, some 10, VolStatut.ALLOUE, some 1⟩

def dbC10 : DB := ⟨[volC10], [standS1, standS2], [⟨1, IncidentStatut.OUVERT⟩]⟩

/-- Witness for claim C10: the reallocation succeeds and the flight's new
stand differs from stand 1. -/
theorem realloc_new_stand_differs_witness :
    (reallouer_vol_unique dbC10 7).1.1 = true ∧
    ∀ r ∈ (reallouer_vol_unique dbC10 7).2.vols, r.id = 7 →
      r.stand_alloue.isSome = true ∧ r.stand_alloue ≠ volC10.stand_alloue :=
  ⟨by decide,
   realloc_new_stand_differs dbC10 7 volC10 (by decide) (by decide) (by decide)⟩

end SmartPark
